import Mathlib

/-!
Shallow embedding of the wfcast weather pipeline: the session location codec
(`prepare_location_data_for_session` / `parse_session_location_data`), the
forecast normalizer (`process_raw_weather_data`), the forecast rehydration
helpers (`parse_iso_strings_in_forecast_data`, `parse_datetime_entry`), and
the history recorder (`update_city_and_history` with the `City.save` hook),
together with proofs of the specified properties.

Python strings are modelled as `List Char`.  Python floats are modelled as
decimal presentations `ℤ × ℕ` (mantissa and number of fractional digits);
`printFloat` models `str()` on a float and `parseFloat` models `float()` on a
decimal literal (whitespace stripping and the inf/nan forms are outside the
model).  External HTTP collaborators (the geocoder) are passed as function
parameters.
-/

namespace Wfcast

/-- Python strings are modelled as lists of characters. -/
abbrev PyStr := List Char

/-- Literal helper: the character data of a string literal. -/
def pstr (s : String) : PyStr := s.data

/-- The decimal digit characters. -/
def digitToChar : ℕ → Char
  | 0 => '0'
  | 1 => '1'
  | 2 => '2'
  | 3 => '3'
  | 4 => '4'
  | 5 => '5'
  | 6 => '6'
  | 7 => '7'
  | 8 => '8'
  | _ => '9'

/-- Numeric value of a digit character. -/
def charToDigit (c : Char) : ℕ := c.toNat - 48

/-- Value of a big-endian list of decimal digits. -/
def digitsToNat (ds : List ℕ) : ℕ := ds.foldl (fun a d => 10 * a + d) 0

/-- Little-endian decimal digits of `n`, with explicit fuel (structural
recursion so that the kernel can evaluate it). -/
def ntdAux : ℕ → ℕ → List ℕ
  | 0, _ => []
  | _ + 1, 0 => []
  | f + 1, n + 1 => ((n + 1) % 10) :: ntdAux f ((n + 1) / 10)

/-- Big-endian decimal digits of `n` (the digits of `0` are `[0]`). -/
def natToDigits (n : ℕ) : List ℕ := if n = 0 then [0] else (ntdAux n n).reverse

/-- Model of Python `str.split(sep)` for a one-character separator. -/
def pySplit (sep : Char) : List Char → List (List Char)
  | [] => [[]]
  | c :: r =>
    match pySplit sep r with
    | [] => if c = sep then [[], []] else [[c]]
    | h :: t => if c = sep then [] :: h :: t else (c :: h) :: t

/-- Whitespace test used by the model of `str.strip()`. -/
def isPySpace (c : Char) : Bool := c.isWhitespace

/-- Model of Python `str.strip()`. -/
def pyStrip (s : PyStr) : PyStr :=
  ((s.dropWhile isPySpace).reverse.dropWhile isPySpace).reverse

/-- Model of `s.replace(",", ".")` for the one-character pattern. -/
def commaToDot (s : PyStr) : PyStr := s.map fun c => if c = ',' then '.' else c

/-- A Python float is modelled as a decimal presentation: a mantissa and the
number of fractional digits, denoting `mantissa / 10 ^ fracDigits`. -/
abbrev PyFloat := ℤ × ℕ

/-- The rational value denoted by a float presentation. -/
def fval (p : PyFloat) : ℚ := (p.1 : ℚ) / 10 ^ p.2

/-- Digit string of `n` with exactly `e` fractional digits (the integer part
is zero-padded so that at least one digit precedes the point). -/
def printNatFrac (n e : ℕ) : PyStr :=
  let ds := natToDigits n
  let ds' := List.replicate (e + 1 - ds.length) 0 ++ ds
  (ds'.take (ds'.length - e)).map digitToChar ++
    '.' :: (ds'.drop (ds'.length - e)).map digitToChar

/-- Model of Python `str()` on a float presentation: sign, digits, decimal
point, fractional digits (integral values print a trailing `.0`). -/
def printFloat (p : PyFloat) : PyStr :=
  (if p.1 < 0 then ['-'] else []) ++
    (if p.2 = 0 then (natToDigits p.1.natAbs).map digitToChar ++ ['.', '0']
     else printNatFrac p.1.natAbs p.2)

/-- Read a maximal run of digit characters. -/
def readDigits : List Char → List ℕ × List Char
  | [] => ([], [])
  | c :: r =>
    if c.isDigit then
      (charToDigit c :: (readDigits r).1, (readDigits r).2)
    else ([], c :: r)

/-- Read an optional leading sign. -/
def parseSign (s : PyStr) : Bool × PyStr :=
  match s with
  | [] => (false, [])
  | c :: r => if c = '-' then (true, r) else if c = '+' then (false, r) else (false, c :: r)

/-- Build a float presentation from a sign, mantissa digits value and
fractional digit count. -/
def mkF (neg : Bool) (n e : ℕ) : PyFloat :=
  (if neg then -(n : ℤ) else (n : ℤ), e)

/-- Parse the exponent part after an `e`/`E` marker; the digits must reach the
end of the string. -/
def parseExpPart (s : PyStr) : Option ℤ :=
  let ps := parseSign s
  let rd := readDigits ps.2
  if rd.1 ≠ [] ∧ rd.2 = [] then
    some (if ps.1 then -(digitsToNat rd.1 : ℤ) else (digitsToNat rd.1 : ℤ))
  else none

/-- Apply a decimal exponent to a float presentation. -/
def applyExp (p : PyFloat) (x : ℤ) : PyFloat :=
  let t := (p.2 : ℤ) - x
  if t ≤ 0 then (p.1 * 10 ^ (-t).toNat, 0) else (p.1, t.toNat)

/-- Continue a float parse after the mantissa (optional exponent part). -/
def parseTail (neg : Bool) (n e : ℕ) (r : List Char) : Option PyFloat :=
  match r with
  | [] => some (mkF neg n e)
  | c :: r2 =>
    if c = 'e' ∨ c = 'E' then (parseExpPart r2).map (applyExp (mkF neg n e))
    else none

/-- Continue a float parse after the integer digits: either the end of the
string, a fractional part, or an exponent part. -/
def parseAfterIntDigits (neg : Bool) (intDs : List ℕ) (r : List Char) : Option PyFloat :=
  match r with
  | [] => if intDs = [] then none else some (mkF neg (digitsToNat intDs) 0)
  | c :: r2 =>
    if c = '.' then
      let rd := readDigits r2
      if intDs = [] ∧ rd.1 = [] then none
      else parseTail neg (digitsToNat (intDs ++ rd.1)) rd.1.length rd.2
    else if c = 'e' ∨ c = 'E' then
      if intDs = [] then none
      else (parseExpPart r2).map (applyExp (mkF neg (digitsToNat intDs) 0))
    else none

/-- Model of Python `float()` on decimal literals: optional sign, digits with
an optional fractional part, optional exponent. -/
def parseFloat (s : PyStr) : Option PyFloat :=
  let ps := parseSign s
  let rd := readDigits ps.2
  parseAfterIntDigits ps.1 rd.1 rd.2

/-- Round a rational to the nearest integer, ties to even (the rounding used
by Python's `round` and float formatting). -/
def roundHalfEven (q : ℚ) : ℤ :=
  let f := q.floor
  let r := q - (f : ℚ)
  if r < 1 / 2 then f else if 1 / 2 < r then f + 1 else if f % 2 = 0 then f else f + 1

/-- Model of the f-string format `f"{q:.4f}"`. -/
def format4f (q : ℚ) : PyStr := printFloat (roundHalfEven (q * 10000), 4)

/-- Model of Python `round(q, 5)`. -/
def pyRound5 (q : ℚ) : ℚ := (roundHalfEven (q * 100000) : ℚ) / 100000

/-- Model of `datetime.date`. -/
structure PyDate where
  year : ℕ
  month : ℕ
  day : ℕ
deriving DecidableEq

/-- Model of `datetime.datetime` (microseconds and timezone offsets are
outside the model). -/
structure PyDateTime where
  year : ℕ
  month : ℕ
  day : ℕ
  hour : ℕ
  minute : ℕ
  second : ℕ
deriving DecidableEq

/-- The date part of a datetime (`datetime.date()`). -/
def PyDateTime.toDate (t : PyDateTime) : PyDate := ⟨t.year, t.month, t.day⟩

/-- Two digit characters as a number. -/
def read2d (a b : Char) : Option ℕ :=
  if a.isDigit && b.isDigit then some (10 * charToDigit a + charToDigit b) else none

/-- Gregorian leap years. -/
def isLeap (y : ℕ) : Bool := (y % 4 == 0 && y % 100 != 0) || (y % 400 == 0)

/-- Days in a month. -/
def daysInMonth (y m : ℕ) : ℕ :=
  if m = 2 then (if isLeap y then 29 else 28)
  else if m = 4 ∨ m = 6 ∨ m = 9 ∨ m = 11 then 30 else 31

/-- Model of `date.fromisoformat`: exactly `YYYY-MM-DD` with range checks. -/
def parseDate (s : PyStr) : Option PyDate :=
  match s with
  | [y1, y2, y3, y4, h1, m1, m2, h2, d1, d2] =>
    if y1.isDigit && y2.isDigit && y3.isDigit && y4.isDigit && (h1 == '-') && (h2 == '-') then
      match read2d m1 m2, read2d d1 d2 with
      | some mo, some da =>
        let yr := 1000 * charToDigit y1 + 100 * charToDigit y2 +
          10 * charToDigit y3 + charToDigit y4
        if 1 ≤ yr ∧ 1 ≤ mo ∧ mo ≤ 12 ∧ 1 ≤ da ∧ da ≤ daysInMonth yr mo then
          some ⟨yr, mo, da⟩
        else none
      | _, _ => none
    else none
  | _ => none

/-- Time-of-day part `HH:MM` or `HH:MM:SS` with range checks. -/
def parseTimePart (s : PyStr) : Option (ℕ × ℕ × ℕ) :=
  match s with
  | [a, b, c, d, e] =>
    if c == ':' then
      match read2d a b, read2d d e with
      | some hh, some mm => if hh ≤ 23 ∧ mm ≤ 59 then some (hh, mm, 0) else none
      | _, _ => none
    else none
  | [a, b, c, d, e, f, g, h] =>
    if c == ':' && f == ':' then
      match read2d a b, read2d d e, read2d g h with
      | some hh, some mm, some ss =>
        if hh ≤ 23 ∧ mm ≤ 59 ∧ ss ≤ 59 then some (hh, mm, ss) else none
      | _, _, _ => none
    else none
  | _ => none

/-- Model of `datetime.fromisoformat`: a date, optionally followed by a
`T`/space separator and a time of day. -/
def parseDateTime (s : PyStr) : Option PyDateTime :=
  match parseDate (s.take 10) with
  | none => none
  | some d =>
    match s.drop 10 with
    | [] => some ⟨d.year, d.month, d.day, 0, 0, 0⟩
    | c :: t =>
      if c == 'T' || c == ' ' then
        (parseTimePart t).map fun x => ⟨d.year, d.month, d.day, x.1, x.2.1, x.2.2⟩
      else none

/-- Two-digit zero padded print. -/
def pad2 (n : ℕ) : PyStr := [digitToChar (n / 10 % 10), digitToChar (n % 10)]

/-- Four-digit zero padded print. -/
def pad4 (n : ℕ) : PyStr :=
  [digitToChar (n / 1000 % 10), digitToChar (n / 100 % 10),
   digitToChar (n / 10 % 10), digitToChar (n % 10)]

/-- Model of `date.isoformat()`. -/
def isoformatDate (d : PyDate) : PyStr :=
  pad4 d.year ++ '-' :: pad2 d.month ++ '-' :: pad2 d.day

/-- Model of `datetime.isoformat()`. -/
def isoformatDateTime (t : PyDateTime) : PyStr :=
  isoformatDate t.toDate ++ 'T' :: pad2 t.hour ++ ':' :: pad2 t.minute ++ ':' :: pad2 t.second

/-- A scalar stored in the session under `lat`/`lon`: either a string or a
JSON number (given by its rational value). -/
inductive SVal where
  | str (s : PyStr)
  | num (q : ℚ)
deriving DecidableEq

/-- Model of `float()` applied to a session scalar, returning the numeric
value on success. -/
def floatOfSVal : SVal → Option ℚ
  | .str s => (parseFloat s).map fval
  | .num q => some q

/-- The session `location` mapping.  A field is `none` when the key is absent
(for `lat`/`lon` this also covers a stored JSON null, which `get` likewise
reports as `None`). -/
structure SessionDict where
  lat : Option SVal
  lon : Option SVal
  display : Option PyStr
  name : Option PyStr
  admin1 : Option PyStr
  country : Option PyStr
deriving DecidableEq

/-- The session `location` value: a mapping or a raw string. -/
inductive SessionData where
  | dict (d : SessionDict)
  | str (s : PyStr)
deriving DecidableEq

/-- Python truthiness of the session value: a dict with no keys and the empty
string are falsy. -/
def truthy : SessionData → Bool
  | .dict d =>
    !(d.lat.isNone && d.lon.isNone && d.display.isNone &&
      d.name.isNone && d.admin1.isNone && d.country.isNone)
  | .str s => !s.isEmpty

/-- The resolved location shape returned by the codec and by
`geocode_exact_city_location`. -/
structure Location where
  lat : ℚ
  lon : ℚ
  display_name : PyStr
  name_component : PyStr
  admin1_component : PyStr
  country_component : PyStr
deriving DecidableEq

/-- Source constant `SEARCH_MIN_LETTERS`. -/
def SEARCH_MIN_LETTERS : ℕ := 2

/-- Source constant `ONE_LETTER`. -/
def ONE_LETTER : ℕ := 1

/-- The default display string `f"{lat:.4f},{lon:.4f}" if lat and lon else
"Unknown Location"` (note the Python truthiness on the floats). -/
def mkDisplayDefault (qlat qlon : ℚ) : PyStr :=
  if qlat ≠ 0 ∧ qlon ≠ 0 then format4f qlat ++ ',' :: format4f qlon
  else pstr "Unknown Location"

/-- Component derivation of `parse_session_location_data`: keep stored
components when name and country are both non-empty, otherwise split the
display string on commas. -/
def deriveComponents (display name0 admin0 country0 : PyStr) :
    PyStr × PyStr × PyStr :=
  if name0 ≠ [] ∧ country0 ≠ [] then (name0, admin0, country0)
  else
    let parts := (pySplit ',' display).map pyStrip
    let name1 := match parts with | [] => name0 | p :: _ => p
    if parts.length > SEARCH_MIN_LETTERS then
      (name1, parts.getD 1 [], parts.getLastD [])
    else if parts.length = SEARCH_MIN_LETTERS then
      (name1, admin0, parts.getD 1 [])
    else if parts.length = ONE_LETTER ∧ country0 = pstr "XX" then
      (name1, admin0, pstr "XX")
    else (name1, admin0, country0)

/-- The dict branch of `parse_session_location_data`. -/
def decodeDict (geo : PyStr → Option Location) (d : SessionDict) : Option Location :=
  match d.lat, d.lon with
  | some rl, some rlo =>
    match floatOfSVal rl, floatOfSVal rlo with
    | some qlat, some qlon =>
      let display := d.display.getD (mkDisplayDefault qlat qlon)
      let name0 := pyStrip (d.name.getD [])
      let admin0 := pyStrip (d.admin1.getD [])
      let country0 := pyStrip (d.country.getD [])
      let comps := deriveComponents display name0 admin0 country0
      some ⟨qlat, qlon, display, comps.1, comps.2.1, comps.2.2⟩
    | _, _ => none
  | _, _ =>
    match d.display with
    | some s => if s ≠ [] then geo s else none
    | none => none

/-- The `"lat,lon"` parse of the string branch: exactly one comma, both parts
stripped and converted by `float()`. -/
def tryParseLatLon (s : PyStr) : Option (ℚ × ℚ) :=
  if s.count ',' = 1 then
    match (pySplit ',' s).map pyStrip with
    | [a, b] =>
      match parseFloat a, parseFloat b with
      | some p, some q => some (fval p, fval q)
      | _, _ => none
    | _ => none
  else none

/-- Model of `parse_session_location_data` (`utils.py`), with the geocoder as
an explicit collaborator. -/
def parse_session_location_data (geo : PyStr → Option Location) :
    Option SessionData → Option Location
  | none => none
  | some sd =>
    if truthy sd then
      match sd with
      | .dict d => decodeDict geo d
      | .str s =>
        match tryParseLatLon s with
        | some q => some ⟨q.1, q.2, s, s, [], pstr "XX"⟩
        | none => geo s
    else none

/-- The mapping produced by `prepare_location_data_for_session`. -/
structure SessionLoc where
  display : PyStr
  lat : Option PyStr
  lon : Option PyStr
deriving DecidableEq

/-- Model of `prepare_location_data_for_session` (`utils.py`). -/
def prepare_location_data_for_session (name : PyStr) (latS lonS : Option PyStr) :
    SessionLoc :=
  match latS, lonS with
  | some a, some b =>
    if a ≠ [] ∧ b ≠ [] then
      match parseFloat (commaToDot a), parseFloat (commaToDot b) with
      | some p, some q => ⟨name, some (printFloat p), some (printFloat q)⟩
      | _, _ => ⟨name, none, none⟩
    else ⟨name, none, none⟩
  | _, _ => ⟨name, none, none⟩

/-- The encoded mapping as it comes back out of the session store. -/
def SessionLoc.toDict (s : SessionLoc) : SessionDict :=
  ⟨s.lat.map SVal.str, s.lon.map SVal.str, some s.display, none, none, none⟩

/-- The `current_weather` object of the forecast provider, passed through
verbatim. -/
structure CurrentWeather where
  temperature : ℚ
  windspeed : ℚ
  winddirection : ℚ
  weathercode : ℚ
  time : PyStr
deriving DecidableEq

/-- The six parallel hourly arrays of the raw payload. -/
structure HourlyArrays where
  time : List PyStr
  temperature_2m : List ℚ
  weather_code : List ℚ
  precipitation_probability : List ℚ
  windspeed_10m : List ℚ
  winddirection_10m : List ℚ
deriving DecidableEq

/-- The four parallel daily arrays of the raw payload. -/
structure DailyArrays where
  time : List PyStr
  temperature_2m_max : List ℚ
  temperature_2m_min : List ℚ
  weather_code : List ℚ
deriving DecidableEq

/-- The raw forecast payload.  A `none` field covers both an absent key and a
stored null (`.get` reports both the same way to the loops). -/
structure RawData where
  hourly : Option HourlyArrays
  daily : Option DailyArrays
  current_weather : Option CurrentWeather
  latitude : Option ℚ
  longitude : Option ℚ
  timezone : Option PyStr
  elevation : Option ℚ
deriving DecidableEq

/-- Python truthiness of the payload dict: falsy exactly when it has no keys. -/
def RawData.isEmpty (r : RawData) : Bool :=
  r.hourly.isNone && r.daily.isNone && r.current_weather.isNone &&
    r.latitude.isNone && r.longitude.isNone && r.timezone.isNone && r.elevation.isNone

/-- One processed hourly record. -/
structure HourlyRecord where
  time : PyStr
  temperature : ℚ
  weather_code : ℚ
  precipitation_probability : ℚ
  windspeed : ℚ
  winddirection : ℚ
deriving DecidableEq

/-- One processed daily record. -/
structure DailyRecord where
  day : PyStr
  temp_max : ℚ
  temp_min : ℚ
  weather_code : ℚ
deriving DecidableEq

/-- The processed forecast bundle. -/
structure WeatherBundle where
  current_weather : Option CurrentWeather
  hourly_processed : List HourlyRecord
  daily_processed : List DailyRecord
  latitude : Option ℚ
  longitude : Option ℚ
  timezone : Option PyStr
  elevation : Option ℚ
deriving DecidableEq

/-- The hourly loop of `process_raw_weather_data`: zip the six arrays up to
the shortest length, skipping records whose timestamp fails to parse. -/
def processHourly (h : HourlyArrays) : List HourlyRecord :=
  let n := min h.time.length (min h.temperature_2m.length (min h.weather_code.length
    (min h.precipitation_probability.length
      (min h.windspeed_10m.length h.winddirection_10m.length))))
  (List.range n).filterMap fun i =>
    match parseDateTime (h.time.getD i []) with
    | some dt =>
      some ⟨isoformatDateTime dt, h.temperature_2m.getD i 0, h.weather_code.getD i 0,
        h.precipitation_probability.getD i 0, h.windspeed_10m.getD i 0,
        h.winddirection_10m.getD i 0⟩
    | none => none

/-- The daily loop of `process_raw_weather_data`. -/
def processDaily (d : DailyArrays) : List DailyRecord :=
  let n := min d.time.length (min d.temperature_2m_max.length
    (min d.temperature_2m_min.length d.weather_code.length))
  (List.range n).filterMap fun i =>
    match parseDate (d.time.getD i []) with
    | some da =>
      some ⟨isoformatDate da, d.temperature_2m_max.getD i 0,
        d.temperature_2m_min.getD i 0, d.weather_code.getD i 0⟩
    | none => none

/-- Model of `process_raw_weather_data` (`utils.py`). -/
def process_raw_weather_data (raw : Option RawData) : Option WeatherBundle :=
  match raw with
  | none => none
  | some r =>
    if r.isEmpty then none
    else some
      { current_weather := r.current_weather
        hourly_processed := match r.hourly with | some h => processHourly h | none => []
        daily_processed := match r.daily with | some d => processDaily d | none => []
        latitude := r.latitude
        longitude := r.longitude
        timezone := r.timezone
        elevation := r.elevation }

/-- The value stored under the datetime key of a forecast record.
`FVal.none` is Python `None` (also covering an absent key, which `get`
reports the same way). -/
inductive FVal where
  | str (s : PyStr)
  | dt (t : PyDateTime)
  | date (d : PyDate)
  | none
  | other
deriving DecidableEq

/-- A forecast-list entry: a record (given by its value at the datetime key),
the `None` entry, or some other non-mapping value. -/
inductive FEntry where
  | dict (v : FVal)
  | null
  | other
deriving DecidableEq

/-- The per-record value update shared by both rehydration helpers: ISO
strings are parsed (failures become `None`); a `datetime` instance is always
accepted; a `date` instance is accepted only in date-only mode (`datetime` is
a subclass of `date`); anything else becomes `None`. -/
def transformVal (dOnly : Bool) : FVal → FVal
  | .str s =>
    match parseDateTime s with
    | some t => if dOnly then .date t.toDate else .dt t
    | Option.none => .none
  | .dt t => .dt t
  | .date d => if dOnly then .date d else .none
  | .none => .none
  | .other => .none

/-- Model of `parse_iso_strings_in_forecast_data` (`utils.py`): the in-place
loop as a pure list transform.  Non-mapping entries are skipped unchanged. -/
def parse_iso_strings_in_forecast_data (dOnly : Bool) (l : List FEntry) :
    List FEntry :=
  l.map fun e =>
    match e with
    | .dict v => .dict (transformVal dOnly v)
    | e => e

/-- Model of `parse_datetime_entry` (`utils.py`): same value update, but
non-mapping entries are overwritten with `None`. -/
def parse_datetime_entry (dOnly : Bool) (l : List FEntry) : List FEntry :=
  l.map fun e =>
    match e with
    | .dict v => .dict (transformVal dOnly v)
    | _ => .null

/-- The caller identity: whether it has an `is_authenticated` attribute, and
that attribute's value. -/
structure PyUser where
  hasAuthAttr : Bool
  is_authenticated : Bool
deriving DecidableEq

/-- The persisted `City` row (`models.py`). -/
structure City where
  name : PyStr
  admin1 : PyStr
  country : PyStr
  latitude : ℚ
  longitude : ℚ
  population : ℤ
  timezone : PyStr
  full_display_name : PyStr
deriving DecidableEq

/-- The `City.save` override: recompute `full_display_name` from the
component fields before persisting. -/
def City.save (c : City) : City :=
  { c with full_display_name :=
      if c.admin1 ≠ [] then c.name ++ pstr ", " ++ c.admin1 ++ pstr ", " ++ c.country
      else c.name ++ pstr ", " ++ c.country }

/-- A `SearchHistory` row. -/
structure SearchHistoryRow where
  user : PyUser
  city : City
deriving DecidableEq

/-- The persistent state touched by the history recorder. -/
structure DB where
  cities : List City
  history : List SearchHistoryRow
deriving DecidableEq

/-- The `City.objects.get_or_create` plus field-update part of
`update_city_and_history`: fetch by rounded coordinates, else create (the
create and any update go through `City.save`). -/
def upsertCity (loc : Location) (cities : List City) : List City × City :=
  let la := pyRound5 loc.lat
  let lo := pyRound5 loc.lon
  match cities.find? (fun c => decide (c.latitude = la ∧ c.longitude = lo)) with
  | some c =>
    if c.name ≠ loc.name_component ∨ c.admin1 ≠ loc.admin1_component ∨
        c.country ≠ loc.country_component ∨ c.full_display_name ≠ loc.display_name then
      let c2 := City.save { c with
        name := loc.name_component
        admin1 := loc.admin1_component
        country := loc.country_component
        full_display_name := loc.display_name }
      (cities.map fun x => if x = c then c2 else x, c2)
    else (cities, c)
  | none =>
    let c := City.save
      { name := loc.name_component
        admin1 := loc.admin1_component
        country := loc.country_component
        latitude := la
        longitude := lo
        population := 0
        timezone := []
        full_display_name := loc.display_name }
    (cities ++ [c], c)

/-- Model of `update_city_and_history` (`utils.py`): upsert the city, then
append a history row only for an authenticated caller. -/
def update_city_and_history (user : PyUser) (loc : Location) (db : DB) : DB :=
  let uc := upsertCity loc db.cities
  { cities := uc.1
    history :=
      if user.hasAuthAttr && user.is_authenticated then db.history ++ [⟨user, uc.2⟩]
      else db.history }

/-- The display-name invariant enforced by the `City.save` hook. -/
def cityInvariant (c : City) : Prop :=
  c.full_display_name =
    (if c.admin1 ≠ [] then c.name ++ pstr ", " ++ c.admin1 ++ pstr ", " ++ c.country
     else c.name ++ pstr ", " ++ c.country)

/-- A geocoder that never resolves, used for concrete evaluations. -/
def geoNone : PyStr → Option Location := fun _ => none

/-- Whether an optional coordinate text parses as a number after
comma-to-period normalization (an absent text does not). -/
def optParses : Option PyStr → Bool
  | none => false
  | some s => (parseFloat (commaToDot s)).isSome

theorem digitToChar_isDigit (d : ℕ) : (digitToChar d).isDigit = true := by
  rcases Nat.lt_or_ge d 9 with h | h
  · interval_cases d <;> decide
  · obtain ⟨k, hk⟩ := Nat.exists_eq_add_of_le h
    subst hk
    rw [Nat.add_comm]
    show ('9').isDigit = true
    decide

theorem charToDigit_digitToChar (d : ℕ) (h : d < 10) :
    charToDigit (digitToChar d) = d := by
  interval_cases d <;> rfl

theorem isDigit_ne_special {c : Char} (h : c.isDigit = true) :
    c ≠ '-' ∧ c ≠ '+' ∧ c ≠ '.' ∧ c ≠ ',' := by
  refine ⟨?_, ?_, ?_, ?_⟩ <;> (rintro rfl; exact absurd h (by decide))

theorem digitsToNat_append (l : List ℕ) (d : ℕ) :
    digitsToNat (l ++ [d]) = 10 * digitsToNat l + d := by
  simp [digitsToNat, List.foldl_append]

theorem digitsToNat_replicate_zero (k : ℕ) (l : List ℕ) :
    digitsToNat (List.replicate k 0 ++ l) = digitsToNat l := by
  induction k with
  | zero => simp
  | succ n ih =>
    have h0 : digitsToNat (List.replicate (n + 1) 0 ++ l) =
        (List.replicate n 0 ++ l).foldl (fun a d => 10 * a + d) (10 * 0 + 0) := by
      simp [digitsToNat, List.replicate_succ]
    simpa [digitsToNat] using h0.trans (by norm_num [digitsToNat] at ih ⊢; exact ih)

theorem ntdAux_spec : ∀ fuel n : ℕ, n ≤ fuel →
    digitsToNat ((ntdAux fuel n).reverse) = n := by
  intro fuel
  induction fuel with
  | zero =>
    intro n hn
    interval_cases n
    simp [ntdAux, digitsToNat]
  | succ f ih =>
    intro n hn
    match n with
    | 0 => simp [ntdAux, digitsToNat]
    | m + 1 =>
      have hdiv : (m + 1) / 10 ≤ f := by
        have := Nat.div_lt_self (Nat.succ_pos m) (by norm_num : 1 < 10)
        omega
      have : ntdAux (f + 1) (m + 1) = ((m + 1) % 10) :: ntdAux f ((m + 1) / 10) := rfl
      rw [this, List.reverse_cons, digitsToNat_append, ih _ hdiv]
      exact Nat.div_add_mod (m + 1) 10

theorem digitsToNat_natToDigits (n : ℕ) : digitsToNat (natToDigits n) = n := by
  by_cases h : n = 0
  · subst h; simp [natToDigits, digitsToNat]
  · simp only [natToDigits, if_neg h]
    exact ntdAux_spec n n le_rfl

theorem ntdAux_lt : ∀ fuel n : ℕ, ∀ d ∈ ntdAux fuel n, d < 10 := by
  intro fuel
  induction fuel with
  | zero => intro n d hd; simp [ntdAux] at hd
  | succ f ih =>
    intro n d hd
    match n with
    | 0 => simp [ntdAux] at hd
    | m + 1 =>
      have : ntdAux (f + 1) (m + 1) = ((m + 1) % 10) :: ntdAux f ((m + 1) / 10) := rfl
      rw [this] at hd
      rcases List.mem_cons.mp hd with h | h
      · subst h; exact Nat.mod_lt _ (by norm_num)
      · exact ih _ d h

theorem natToDigits_lt (n : ℕ) : ∀ d ∈ natToDigits n, d < 10 := by
  intro d hd
  by_cases h : n = 0
  · subst h; simp [natToDigits] at hd; omega
  · simp only [natToDigits, if_neg h, List.mem_reverse] at hd
    exact ntdAux_lt n n d hd

theorem natToDigits_ne_nil (n : ℕ) : natToDigits n ≠ [] := by
  by_cases h : n = 0
  · subst h; simp [natToDigits]
  · simp only [natToDigits, if_neg h]
    match n, h with
    | m + 1, _ =>
      have : ntdAux (m + 1) (m + 1) = ((m + 1) % 10) :: ntdAux m ((m + 1) / 10) := rfl
      simp [this]

theorem readDigits_eq (ds : List ℕ) (rest : List Char)
    (hds : ∀ d ∈ ds, d < 10)
    (hrest : ∀ c, rest.head? = some c → c.isDigit = false) :
    readDigits (ds.map digitToChar ++ rest) = (ds, rest) := by
  induction ds with
  | nil =>
    simp only [List.map_nil, List.nil_append]
    cases rest with
    | nil => rfl
    | cons c t =>
      have hc := hrest c rfl
      simp [readDigits, hc]
  | cons d t ih =>
    have hd : d < 10 := hds d (by simp)
    have hrec := ih (fun x hx => hds x (by simp [hx]))
    simp only [List.map_cons, List.cons_append, readDigits, digitToChar_isDigit d,
      if_true, List.append_eq, hrec, charToDigit_digitToChar d hd]

theorem parseSign_not_sign {c : Char} (r : List Char) (h1 : c ≠ '-') (h2 : c ≠ '+') :
    parseSign (c :: r) = (false, c :: r) := by
  simp [parseSign, h1, h2]

theorem parseSign_digit {c : Char} (r : List Char) (h : c.isDigit = true) :
    parseSign (c :: r) = (false, c :: r) :=
  parseSign_not_sign r (isDigit_ne_special h).1 (isDigit_ne_special h).2.1

theorem printNatFrac_eq (n e : ℕ) :
    printNatFrac n e =
      ((List.replicate (e + 1 - (natToDigits n).length) 0 ++ natToDigits n).take
          ((List.replicate (e + 1 - (natToDigits n).length) 0 ++ natToDigits n).length - e)).map
          digitToChar ++
        '.' :: ((List.replicate (e + 1 - (natToDigits n).length) 0 ++ natToDigits n).drop
          ((List.replicate (e + 1 - (natToDigits n).length) 0 ++ natToDigits n).length - e)).map
          digitToChar := rfl

theorem padded_digits_lt (n e : ℕ) :
    ∀ d ∈ List.replicate (e + 1 - (natToDigits n).length) 0 ++ natToDigits n, d < 10 := by
  intro d hd
  rcases List.mem_append.mp hd with h | h
  · have := List.eq_of_mem_replicate h
    omega
  · exact natToDigits_lt n d h

theorem padded_digits_length (n e : ℕ) :
    e + 1 ≤ (List.replicate (e + 1 - (natToDigits n).length) 0 ++ natToDigits n).length := by
  have h1 : (natToDigits n).length ≠ 0 := by
    simpa [List.length_eq_zero] using natToDigits_ne_nil n
  simp only [List.length_append, List.length_replicate]
  omega

theorem padded_digits_value (n e : ℕ) :
    digitsToNat (List.replicate (e + 1 - (natToDigits n).length) 0 ++ natToDigits n) = n := by
  rw [digitsToNat_replicate_zero, digitsToNat_natToDigits]

theorem parseAfterIntDigits_dot (neg : Bool) (intDs : List ℕ) (r2 : List Char) :
    parseAfterIntDigits neg intDs ('.' :: r2) =
      if intDs = [] ∧ (readDigits r2).1 = [] then none
      else parseTail neg (digitsToNat (intDs ++ (readDigits r2).1))
        (readDigits r2).1.length (readDigits r2).2 := rfl

theorem parseFloat_via_sign (s : PyStr) :
    parseFloat s = parseAfterIntDigits (parseSign s).1
      (readDigits (parseSign s).2).1 (readDigits (parseSign s).2).2 := rfl

theorem parseSign_minus (r : List Char) : parseSign ('-' :: r) = (true, r) := rfl

theorem parse_natFrac (neg : Bool) (n e : ℕ) (_he : e ≠ 0) :
    parseAfterIntDigits neg (readDigits (printNatFrac n e)).1
      (readDigits (printNatFrac n e)).2 = some (mkF neg n e) := by
  have hds' := padded_digits_lt n e
  have hlen := padded_digits_length n e
  set ds' := List.replicate (e + 1 - (natToDigits n).length) 0 ++ natToDigits n with hds'def
  have htake : ∀ d ∈ ds'.take (ds'.length - e), d < 10 :=
    fun d hd => hds' d (List.mem_of_mem_take hd)
  have hdrop : ∀ d ∈ ds'.drop (ds'.length - e), d < 10 :=
    fun d hd => hds' d (List.mem_of_mem_drop hd)
  have hrd1 : readDigits (printNatFrac n e) =
      (ds'.take (ds'.length - e), '.' :: (ds'.drop (ds'.length - e)).map digitToChar) := by
    rw [printNatFrac_eq]
    refine readDigits_eq _ _ htake ?_
    intro c hc
    simp only [List.head?_cons, Option.some.injEq] at hc
    subst hc
    decide
  have hrd2 : readDigits ((ds'.drop (ds'.length - e)).map digitToChar) =
      (ds'.drop (ds'.length - e), []) := by
    have h := readDigits_eq (ds'.drop (ds'.length - e)) [] hdrop
      (by intro c hc; simp at hc)
    simpa using h
  have htake_len : (ds'.take (ds'.length - e)).length = ds'.length - e := by
    rw [List.length_take]
    omega
  have htake_ne : ds'.take (ds'.length - e) ≠ [] := by
    intro hnil
    rw [hnil] at htake_len
    simp at htake_len
    omega
  have hlen_drop : (ds'.drop (ds'.length - e)).length = e := by
    rw [List.length_drop]
    omega
  rw [hrd1, parseAfterIntDigits_dot, hrd2]
  rw [if_neg (fun hc => htake_ne hc.1)]
  show parseTail neg (digitsToNat (ds'.take (ds'.length - e) ++ ds'.drop (ds'.length - e)))
    (ds'.drop (ds'.length - e)).length [] = some (mkF neg n e)
  rw [List.take_append_drop, padded_digits_value, hlen_drop]
  rfl

theorem parseSign_printNatFrac (n e : ℕ) (_he : e ≠ 0) :
    parseSign (printNatFrac n e) = (false, printNatFrac n e) := by
  have hds' := padded_digits_lt n e
  have hlen := padded_digits_length n e
  set ds' := List.replicate (e + 1 - (natToDigits n).length) 0 ++ natToDigits n with hds'def
  have htake_len : (ds'.take (ds'.length - e)).length = ds'.length - e := by
    rw [List.length_take]
    omega
  have htake_ne : ds'.take (ds'.length - e) ≠ [] := by
    intro hnil
    rw [hnil] at htake_len
    simp at htake_len
    omega
  obtain ⟨d0, t, ht⟩ := List.exists_cons_of_ne_nil htake_ne
  have hd0mem : d0 ∈ ds'.take (ds'.length - e) := by rw [ht]; simp
  have hd0 : d0 < 10 := hds' d0 (List.mem_of_mem_take hd0mem)
  rw [printNatFrac_eq]
  show parseSign ((ds'.take (ds'.length - e)).map digitToChar ++
    '.' :: (ds'.drop (ds'.length - e)).map digitToChar) = _
  rw [ht]
  simp only [List.map_cons, List.cons_append]
  exact parseSign_digit _ (digitToChar_isDigit d0)

theorem parse_int0 (neg : Bool) (n : ℕ) :
    parseAfterIntDigits neg
      (readDigits ((natToDigits n).map digitToChar ++ ['.', '0'])).1
      (readDigits ((natToDigits n).map digitToChar ++ ['.', '0'])).2 =
      some (mkF neg (10 * n) 1) := by
  have hrd1 : readDigits ((natToDigits n).map digitToChar ++ ['.', '0']) =
      (natToDigits n, ['.', '0']) := by
    refine readDigits_eq _ _ (natToDigits_lt n) ?_
    intro c hc
    simp only [List.head?_cons, Option.some.injEq] at hc
    subst hc
    decide
  have h0 : readDigits ['0'] = ([0], []) := by decide
  rw [hrd1]
  show parseAfterIntDigits neg (natToDigits n) ('.' :: ['0']) = _
  rw [parseAfterIntDigits_dot, h0]
  rw [if_neg (fun hc => natToDigits_ne_nil n hc.1)]
  show parseTail neg (digitsToNat (natToDigits n ++ [0])) 1 [] = _
  rw [digitsToNat_append, digitsToNat_natToDigits]
  rfl

theorem parseSign_int0 (n : ℕ) :
    parseSign ((natToDigits n).map digitToChar ++ ['.', '0']) =
      (false, (natToDigits n).map digitToChar ++ ['.', '0']) := by
  obtain ⟨d0, t, ht⟩ := List.exists_cons_of_ne_nil (natToDigits_ne_nil n)
  rw [ht]
  simp only [List.map_cons, List.cons_append]
  exact parseSign_digit _ (digitToChar_isDigit d0)

theorem fval_mkF_true (n e : ℕ) : fval (mkF true n e) = -(n : ℚ) / 10 ^ e := by
  simp [mkF, fval]

theorem fval_mkF_false (n e : ℕ) : fval (mkF false n e) = (n : ℚ) / 10 ^ e := by
  simp [mkF, fval]

theorem printFloat_neg_int0 (m : ℤ) (hm : m < 0) :
    printFloat (m, 0) = '-' :: ((natToDigits m.natAbs).map digitToChar ++ ['.', '0']) := by
  simp [printFloat, hm]

theorem printFloat_neg_frac (m : ℤ) (e : ℕ) (hm : m < 0) (he : e ≠ 0) :
    printFloat (m, e) = '-' :: printNatFrac m.natAbs e := by
  simp [printFloat, hm, he]

theorem printFloat_nonneg_int0 (m : ℤ) (hm : ¬m < 0) :
    printFloat (m, 0) = (natToDigits m.natAbs).map digitToChar ++ ['.', '0'] := by
  simp [printFloat, hm]

theorem printFloat_nonneg_frac (m : ℤ) (e : ℕ) (hm : ¬m < 0) (he : e ≠ 0) :
    printFloat (m, e) = printNatFrac m.natAbs e := by
  simp [printFloat, hm, he]

/-- Value-level round trip: `float(str(x))` recovers the value of `x` for
every float presentation. -/
theorem parseFloat_printFloat (p : PyFloat) :
    ∃ q, parseFloat (printFloat p) = some q ∧ fval q = fval p := by
  obtain ⟨m, e⟩ := p
  by_cases hm : m < 0 <;> by_cases he : e = 0
  · subst he
    have habs : ((m.natAbs : ℚ)) = -(m : ℚ) := by
      rw [Int.cast_natAbs]
      exact_mod_cast abs_of_neg hm
    refine ⟨mkF true (10 * m.natAbs) 1, ?_, ?_⟩
    · rw [printFloat_neg_int0 m hm, parseFloat_via_sign, parseSign_minus]
      exact parse_int0 true m.natAbs
    · rw [fval_mkF_true]
      simp only [fval]
      push_cast
      rw [habs]
      ring
  · have habs : ((m.natAbs : ℚ)) = -(m : ℚ) := by
      rw [Int.cast_natAbs]
      exact_mod_cast abs_of_neg hm
    refine ⟨mkF true m.natAbs e, ?_, ?_⟩
    · rw [printFloat_neg_frac m e hm he, parseFloat_via_sign, parseSign_minus]
      exact parse_natFrac true m.natAbs e he
    · rw [fval_mkF_true]
      simp only [fval]
      rw [habs]
      ring
  · subst he
    have habs : ((m.natAbs : ℚ)) = (m : ℚ) := by
      rw [Int.cast_natAbs]
      exact_mod_cast abs_of_nonneg (not_lt.mp hm)
    refine ⟨mkF false (10 * m.natAbs) 1, ?_, ?_⟩
    · rw [printFloat_nonneg_int0 m hm, parseFloat_via_sign, parseSign_int0]
      exact parse_int0 false m.natAbs
    · rw [fval_mkF_false]
      simp only [fval]
      push_cast
      rw [habs]
      ring
  · have habs : ((m.natAbs : ℚ)) = (m : ℚ) := by
      rw [Int.cast_natAbs]
      exact_mod_cast abs_of_nonneg (not_lt.mp hm)
    refine ⟨mkF false m.natAbs e, ?_, ?_⟩
    · rw [printFloat_nonneg_frac m e hm he, parseFloat_via_sign, parseSign_printNatFrac m.natAbs e he]
      exact parse_natFrac false m.natAbs e he
    · rw [fval_mkF_false]
      simp only [fval]
      rw [habs]

theorem commaToDot_map_digitToChar (l : List ℕ) :
    commaToDot (l.map digitToChar) = l.map digitToChar := by
  simp only [commaToDot, List.map_map]
  refine List.map_congr_left ?_
  intro d _
  have h := (isDigit_ne_special (digitToChar_isDigit d)).2.2.2
  simp [h]

theorem commaToDot_printNatFrac (n e : ℕ) :
    commaToDot (printNatFrac n e) = printNatFrac n e := by
  rw [printNatFrac_eq]
  simp only [commaToDot, List.map_append, List.map_cons, ite_self]
  have h1 := commaToDot_map_digitToChar
    ((List.replicate (e + 1 - (natToDigits n).length) 0 ++ natToDigits n).take
      ((List.replicate (e + 1 - (natToDigits n).length) 0 ++ natToDigits n).length - e))
  have h2 := commaToDot_map_digitToChar
    ((List.replicate (e + 1 - (natToDigits n).length) 0 ++ natToDigits n).drop
      ((List.replicate (e + 1 - (natToDigits n).length) 0 ++ natToDigits n).length - e))
  simp only [commaToDot] at h1 h2
  rw [h1, h2]

theorem commaToDot_printFloat (p : PyFloat) :
    commaToDot (printFloat p) = printFloat p := by
  obtain ⟨m, e⟩ := p
  by_cases hm : m < 0 <;> by_cases he : e = 0
  · subst he
    rw [printFloat_neg_int0 m hm]
    simp only [commaToDot, List.map_cons, List.map_append]
    rw [if_neg (by decide : ¬('-' : Char) = ',')]
    have h1 := commaToDot_map_digitToChar (natToDigits m.natAbs)
    simp only [commaToDot] at h1
    rw [h1]
    rfl
  · rw [printFloat_neg_frac m e hm he]
    simp only [commaToDot, List.map_cons]
    rw [if_neg (by decide : ¬('-' : Char) = ',')]
    have h := commaToDot_printNatFrac m.natAbs e
    simp only [commaToDot] at h
    rw [h]
  · subst he
    rw [printFloat_nonneg_int0 m hm]
    simp only [commaToDot, List.map_append]
    have h1 := commaToDot_map_digitToChar (natToDigits m.natAbs)
    simp only [commaToDot] at h1
    rw [h1]
    rfl
  · rw [printFloat_nonneg_frac m e hm he]
    exact commaToDot_printNatFrac m.natAbs e

theorem printFloat_ne_nil (p : PyFloat) : printFloat p ≠ [] := by
  obtain ⟨m, e⟩ := p
  by_cases hm : m < 0 <;> by_cases he : e = 0
  · subst he; rw [printFloat_neg_int0 m hm]; simp
  · rw [printFloat_neg_frac m e hm he]; simp
  · subst he
    rw [printFloat_nonneg_int0 m hm]
    simp
  · rw [printFloat_nonneg_frac m e hm he, printNatFrac_eq]
    simp

theorem getD_mem : ∀ (l : List α) (i : ℕ) (d : α), i < l.length → l.getD i d ∈ l
  | [], i, _, h => absurd h (by simp)
  | a :: _, 0, d, _ => by
    rw [List.getD_cons_zero]
    exact List.mem_cons_self a _
  | _ :: t, i + 1, d, h => by
    rw [List.getD_cons_succ]
    exact List.mem_cons_of_mem _ (getD_mem t i d (by simpa using h))

theorem getD_map (f : α → β) : ∀ (l : List α) (i : ℕ) (d1 : α) (d2 : β),
    i < l.length → (l.map f).getD i d2 = f (l.getD i d1)
  | [], i, _, _, h => absurd h (by simp)
  | a :: _, 0, _, _, _ => by simp
  | _ :: t, i + 1, d1, d2, h => by
    simp only [List.map_cons, List.getD_cons_succ]
    exact getD_map f t i d1 d2 (by simpa using h)

theorem length_filterMap_all_some (f : α → Option β) :
    ∀ l : List α, (∀ a ∈ l, (f a).isSome) → (l.filterMap f).length = l.length
  | [], _ => rfl
  | a :: t, h => by
    rcases hfa : f a with _ | b
    · have := h a (by simp)
      rw [hfa] at this
      simp at this
    · rw [List.filterMap_cons_some hfa]
      simp only [List.length_cons]
      rw [length_filterMap_all_some f t (fun x hx => h x (by simp [hx]))]

theorem truthy_of_lat_some (d : SessionDict) (v : SVal) (h : d.lat = some v) :
    truthy (.dict d) = true := by
  simp [truthy, h]

theorem parse_session_dict (geo : PyStr → Option Location) (d : SessionDict)
    (h : truthy (.dict d) = true) :
    parse_session_location_data geo (some (.dict d)) = decodeDict geo d := by
  simp [parse_session_location_data, h]

theorem decodeDict_parsed (geo : PyStr → Option Location) (d : SessionDict)
    (vl vlo : SVal) (ql qlo : ℚ)
    (hl : d.lat = some vl) (hlo : d.lon = some vlo)
    (hfl : floatOfSVal vl = some ql) (hflo : floatOfSVal vlo = some qlo) :
    decodeDict geo d =
      some ⟨ql, qlo, d.display.getD (mkDisplayDefault ql qlo),
        (deriveComponents (d.display.getD (mkDisplayDefault ql qlo))
          (pyStrip (d.name.getD [])) (pyStrip (d.admin1.getD []))
          (pyStrip (d.country.getD []))).1,
        (deriveComponents (d.display.getD (mkDisplayDefault ql qlo))
          (pyStrip (d.name.getD [])) (pyStrip (d.admin1.getD []))
          (pyStrip (d.country.getD []))).2.1,
        (deriveComponents (d.display.getD (mkDisplayDefault ql qlo))
          (pyStrip (d.name.getD [])) (pyStrip (d.admin1.getD []))
          (pyStrip (d.country.getD []))).2.2⟩ := by
  simp [decodeDict, hl, hlo, hfl, hflo]

/-- C1: for every city name string and every pair of floats whose `str()`
forms are passed to `prepare_location_data_for_session`, decoding the stored
mapping with `parse_session_location_data` succeeds and returns the same
numeric lat and lon. -/
theorem c1_codec_roundtrip (geo : PyStr → Option Location) (name : PyStr)
    (pLat pLon : PyFloat) :
    ∃ loc,
      parse_session_location_data geo (some (.dict (SessionLoc.toDict
        (prepare_location_data_for_session name
          (some (printFloat pLat)) (some (printFloat pLon)))))) = some loc ∧
      loc.lat = fval pLat ∧ loc.lon = fval pLon := by
  obtain ⟨p1, hp1, hv1⟩ := parseFloat_printFloat pLat
  obtain ⟨p2, hp2, hv2⟩ := parseFloat_printFloat pLon
  obtain ⟨p1b, hp1b, hv1b⟩ := parseFloat_printFloat p1
  obtain ⟨p2b, hp2b, hv2b⟩ := parseFloat_printFloat p2
  have henc : prepare_location_data_for_session name
      (some (printFloat pLat)) (some (printFloat pLon)) =
      ⟨name, some (printFloat p1), some (printFloat p2)⟩ := by
    simp [prepare_location_data_for_session, commaToDot_printFloat, hp1, hp2,
      printFloat_ne_nil]
  rw [henc]
  have htoDict : SessionLoc.toDict ⟨name, some (printFloat p1), some (printFloat p2)⟩ =
      ⟨some (.str (printFloat p1)), some (.str (printFloat p2)), some name,
        none, none, none⟩ := rfl
  rw [htoDict]
  rw [parse_session_dict geo _ (truthy_of_lat_some _ _ rfl)]
  have hfl : floatOfSVal (.str (printFloat p1)) = some (fval p1b) := by
    simp [floatOfSVal, hp1b]
  have hflo : floatOfSVal (.str (printFloat p2)) = some (fval p2b) := by
    simp [floatOfSVal, hp2b]
  rw [decodeDict_parsed geo _ _ _ _ _ rfl rfl hfl hflo]
  refine ⟨_, rfl, ?_, ?_⟩
  · show fval p1b = fval pLat
    exact hv1b.trans hv1
  · show fval p2b = fval pLon
    exact hv2b.trans hv2

/-- C3: the encoder stores lat and lon both as text exactly when both given
texts parse as numbers after comma-to-period normalization, and stores null
for both otherwise — never text for one coordinate and null for the other. -/
theorem c3_encode_atomic_pair (name : PyStr) (latS lonS : Option PyStr) :
    ((prepare_location_data_for_session name latS lonS).lat = none ↔
      (prepare_location_data_for_session name latS lonS).lon = none) ∧
    ((prepare_location_data_for_session name latS lonS).lat ≠ none ↔
      optParses latS = true ∧ optParses lonS = true) := by
  cases latS with
  | none => simp [prepare_location_data_for_session, optParses]
  | some a =>
    cases lonS with
    | none => simp [prepare_location_data_for_session, optParses]
    | some b =>
      by_cases hab : a ≠ [] ∧ b ≠ []
      · rcases hpa : parseFloat (commaToDot a) with _ | p
        · simp [prepare_location_data_for_session, hab, hpa, optParses]
        · rcases hpb : parseFloat (commaToDot b) with _ | q
          · simp [prepare_location_data_for_session, hab, hpa, hpb, optParses]
          · simp [prepare_location_data_for_session, hab, hpa, hpb, optParses]
      · have hemp : a = [] ∨ b = [] := by
          rcases not_and_or.mp hab with h | h
          · exact Or.inl (not_not.mp h)
          · exact Or.inr (not_not.mp h)
        have hE : ∀ s : PyStr, s = [] → optParses (some s) = false := by
          intro s hs
          subst hs
          rfl
        have h0 : parseFloat (commaToDot ([] : PyStr)) = none := rfl
        rcases hemp with h | h
        · simp [prepare_location_data_for_session, hab, optParses, h, h0]
        · simp [prepare_location_data_for_session, hab, optParses, h, h0]

/-- C7: the normalizer returns not-found exactly for an absent or empty raw
payload; every non-empty payload yields a bundle. -/
theorem c7_normalize_not_found_iff (raw : Option RawData) :
    process_raw_weather_data raw = none ↔
      raw = none ∨ ∃ r, raw = some r ∧ r.isEmpty = true := by
  cases raw with
  | none => simp [process_raw_weather_data]
  | some r =>
    by_cases h : r.isEmpty
    · simp [process_raw_weather_data, h]
    · simp [process_raw_weather_data, h]

/-- C2: evaluation at the failing input.  On a session mapping with numeric
coordinates, a one-part display string and no stored components, the decoded
country component is the empty string, not the documented `"XX"` default
(the `XX` fallback branch compares the already overwritten country against
`"XX"` and is therefore a no-op). -/
theorem c2_one_part_country_empty :
    (parse_session_location_data geoNone (some (.dict
      ⟨some (.num (488566 / 10000)), some (.num (23522 / 10000)),
        some (pstr "Paris"), none, none, none⟩))).map Location.country_component =
      some [] ∧ ([] : PyStr) ≠ pstr "XX" :=
  ⟨rfl, by decide⟩

/-- C10: when the session mapping has numeric lat and lon but no display
entry, the display name is the four-decimal coordinate format only when both
coordinates are non-zero; a zero coordinate is falsy and falls back to
"Unknown Location". -/
theorem c10_zero_coordinate_display (geo : PyStr → Option Location)
    (d : SessionDict) (vl vlo : SVal) (ql qlo : ℚ)
    (hl : d.lat = some vl) (hlo : d.lon = some vlo)
    (hfl : floatOfSVal vl = some ql) (hflo : floatOfSVal vlo = some qlo)
    (hd : d.display = none) :
    ∃ loc, parse_session_location_data geo (some (.dict d)) = some loc ∧
      loc.display_name =
        (if ql ≠ 0 ∧ qlo ≠ 0 then format4f ql ++ ',' :: format4f qlo
         else pstr "Unknown Location") := by
  rw [parse_session_dict geo d (truthy_of_lat_some d vl hl)]
  rw [decodeDict_parsed geo d vl vlo ql qlo hl hlo hfl hflo]
  refine ⟨_, rfl, ?_⟩
  show d.display.getD (mkDisplayDefault ql qlo) = _
  rw [hd]
  rfl

theorem c10_zero_coordinate_display_witness :
    ∃ loc, parse_session_location_data geoNone (some (.dict
      ⟨some (.num 0), some (.num 1), none, none, none, none⟩)) = some loc ∧
      loc.display_name = pstr "Unknown Location" := by
  obtain ⟨loc, hloc, hdisp⟩ := c10_zero_coordinate_display geoNone
    ⟨some (.num 0), some (.num 1), none, none, none, none⟩ (.num 0) (.num 1) 0 1
    rfl rfl rfl rfl rfl
  refine ⟨loc, hloc, ?_⟩
  rw [hdisp]
  norm_num

/-- C5: a raw session string with exactly one comma is parsed as numeric
coordinates; on success the whole input string becomes the name component
with defaults for the other components (as in `"48.85,2.35"`); on failure,
or without exactly one comma, the codec delegates to the geocoder. -/
theorem c5_string_branch (geo : PyStr → Option Location) (s : PyStr) (h : s ≠ []) :
    (∀ la lo : ℚ, tryParseLatLon s = some (la, lo) →
      parse_session_location_data geo (some (.str s)) =
        some ⟨la, lo, s, s, [], pstr "XX"⟩) ∧
    (tryParseLatLon s = none →
      parse_session_location_data geo (some (.str s)) = geo s) ∧
    parse_session_location_data geo (some (.str (pstr "48.85,2.35"))) =
      some ⟨4885 / 100, 235 / 100, pstr "48.85,2.35", pstr "48.85,2.35",
        [], pstr "XX"⟩ := by
  have htr : truthy (.str s) = true := by
    cases s with
    | nil => exact absurd rfl h
    | cons c t => rfl
  refine ⟨?_, ?_, ?_⟩
  · intro la lo htp
    simp [parse_session_location_data, htr, htp]
  · intro htp
    simp [parse_session_location_data, htr, htp]
  · have h1 : parse_session_location_data geo (some (.str (pstr "48.85,2.35"))) =
        some ⟨fval (4885, 2), fval (235, 2), pstr "48.85,2.35", pstr "48.85,2.35",
          [], pstr "XX"⟩ := rfl
    rw [h1]
    norm_num [fval]

theorem c5_string_branch_witness :
    parse_session_location_data geoNone (some (.str (pstr "Paris"))) = none :=
  (c5_string_branch geoNone (pstr "Paris") (by decide)).2.1 rfl

/-- C4: hourly and daily record counts never exceed the shortest constituent
parallel array, and a payload whose hourly arrays have lengths
`[5, 5, 5, 4, 5, 5]` with parseable timestamps yields exactly 4 hourly
records. -/
theorem c4_shortest_array_truncation :
    (∀ h : HourlyArrays, (processHourly h).length ≤
      min h.time.length (min h.temperature_2m.length (min h.weather_code.length
        (min h.precipitation_probability.length
          (min h.windspeed_10m.length h.winddirection_10m.length))))) ∧
    (∀ d : DailyArrays, (processDaily d).length ≤
      min d.time.length (min d.temperature_2m_max.length
        (min d.temperature_2m_min.length d.weather_code.length))) ∧
    (∀ h : HourlyArrays,
      h.time.length = 5 → h.temperature_2m.length = 5 → h.weather_code.length = 5 →
      h.precipitation_probability.length = 4 → h.windspeed_10m.length = 5 →
      h.winddirection_10m.length = 5 →
      (∀ s ∈ h.time, (parseDateTime s).isSome) →
      ∃ b, process_raw_weather_data
          (some ⟨some h, none, none, none, none, none, none⟩) = some b ∧
        b.hourly_processed.length = 4) := by
  refine ⟨?_, ?_, ?_⟩
  · intro h
    simp only [processHourly]
    exact le_trans (List.length_filterMap_le _ _) (le_of_eq (List.length_range _))
  · intro d
    simp only [processDaily]
    exact le_trans (List.length_filterMap_le _ _) (le_of_eq (List.length_range _))
  · intro h h1 h2 h3 h4 h5 h6 hp
    have hn : min h.time.length (min h.temperature_2m.length (min h.weather_code.length
        (min h.precipitation_probability.length
          (min h.windspeed_10m.length h.winddirection_10m.length)))) = 4 := by
      rw [h1, h2, h3, h4, h5, h6]
      decide
    refine ⟨_, rfl, ?_⟩
    show (processHourly h).length = 4
    simp only [processHourly, hn]
    rw [length_filterMap_all_some]
    · exact List.length_range 4
    · intro i hi
      rw [List.mem_range] at hi
      have hmem : h.time.getD i [] ∈ h.time := getD_mem h.time i [] (by omega)
      rcases hpd : parseDateTime (h.time.getD i []) with _ | dt
      · have := hp _ hmem
        rw [hpd] at this
        simp at this
      · simp [hpd]

theorem c4_shortest_array_truncation_witness :
    ∃ b, process_raw_weather_data (some ⟨some ⟨List.replicate 5 (pstr "2024-01-01T00:00"),
      List.replicate 5 0, List.replicate 5 0, List.replicate 4 0, List.replicate 5 0,
      List.replicate 5 0⟩, none, none, none, none, none, none⟩) = some b ∧
      b.hourly_processed.length = 4 :=
  c4_shortest_array_truncation.2.2 _ rfl rfl rfl rfl rfl rfl (by decide)

/-- C6 counterexample: the rehydrate operation used on forecast records
(`parse_iso_strings_in_forecast_data`) leaves a non-mapping entry unchanged
instead of setting it to the null sentinel. -/
theorem c6_nonmapping_entry_not_nulled :
    parse_iso_strings_in_forecast_data false [FEntry.other] = [FEntry.other] ∧
      FEntry.other ≠ FEntry.null :=
  ⟨rfl, by decide⟩

/-- C6 (amended): rehydration sets every timestamp value that fails ISO-8601
parsing to the null sentinel in place, leaves entries that are not mappings
unchanged in place (skipping them) rather than dropping them, and never
changes the list length. -/
theorem c6_rehydrate_in_place (dOnly : Bool) (l : List FEntry) :
    (parse_iso_strings_in_forecast_data dOnly l).length = l.length ∧
    (∀ i, i < l.length → (∀ v, l.getD i FEntry.null ≠ FEntry.dict v) →
      (parse_iso_strings_in_forecast_data dOnly l).getD i FEntry.null =
        l.getD i FEntry.null) ∧
    (∀ i s, i < l.length → l.getD i FEntry.null = FEntry.dict (FVal.str s) →
      parseDateTime s = none →
      (parse_iso_strings_in_forecast_data dOnly l).getD i FEntry.null =
        FEntry.dict FVal.none) := by
  refine ⟨by simp [parse_iso_strings_in_forecast_data], ?_, ?_⟩
  · intro i hi hnd
    rw [parse_iso_strings_in_forecast_data,
      getD_map _ l i FEntry.null FEntry.null hi]
    rcases hE : l.getD i FEntry.null with v | _ | _
    · exact absurd hE (fun hE2 => hnd v hE2)
    · rfl
    · rfl
  · intro i s hi hd hparse
    rw [parse_iso_strings_in_forecast_data,
      getD_map _ l i FEntry.null FEntry.null hi, hd]
    show FEntry.dict (transformVal dOnly (FVal.str s)) = FEntry.dict FVal.none
    simp [transformVal, hparse]

theorem c6_rehydrate_in_place_witness :
    (parse_iso_strings_in_forecast_data false
      [FEntry.dict (FVal.str (pstr "bad"))]).getD 0 FEntry.null =
      FEntry.dict FVal.none :=
  (c6_rehydrate_in_place false _).2.2 0 (pstr "bad") (by decide) rfl rfl

/-- C8: an unauthenticated caller, or one lacking the authentication
attribute, never creates a search-history row — the history state is
unchanged — while the city upsert still takes place. -/
theorem c8_unauthenticated_no_history (u : PyUser) (loc : Location) (db : DB)
    (h : (u.hasAuthAttr && u.is_authenticated) = false) :
    (update_city_and_history u loc db).history = db.history ∧
    (update_city_and_history u loc db).cities = (upsertCity loc db.cities).1 := by
  constructor
  · simp [update_city_and_history, h]
  · rfl

theorem c8_unauthenticated_no_history_witness :
    (update_city_and_history ⟨false, true⟩
      ⟨0, 0, pstr "X", pstr "A", [], pstr "B"⟩ ⟨[], []⟩).history = [] ∧
    (update_city_and_history ⟨false, true⟩
      ⟨0, 0, pstr "X", pstr "A", [], pstr "B"⟩ ⟨[], []⟩).cities =
      (upsertCity ⟨0, 0, pstr "X", pstr "A", [], pstr "B"⟩ []).1 :=
  c8_unauthenticated_no_history ⟨false, true⟩ _ _ rfl

/-- C9: every city persisted through `update_city_and_history` satisfies the
display-name invariant recomputed by the `City.save` hook — the parsed
location's display string is never stored verbatim when it differs from the
recomputed form. -/
theorem c9_city_display_invariant (u : PyUser) (loc : Location) (db : DB)
    (hdb : ∀ c ∈ db.cities, cityInvariant c) :
    ∀ c ∈ (update_city_and_history u loc db).cities, cityInvariant c := by
  have hsave : ∀ x : City, cityInvariant (City.save x) := by
    intro x
    simp [City.save, cityInvariant]
  intro c hc
  have hc2 : c ∈ (upsertCity loc db.cities).1 := hc
  rcases hfind : db.cities.find? (fun x =>
      decide (x.latitude = pyRound5 loc.lat ∧ x.longitude = pyRound5 loc.lon))
    with _ | c0
  · simp only [upsertCity, hfind] at hc2
    rcases List.mem_append.mp hc2 with hmem | hmem
    · exact hdb c hmem
    · rw [List.mem_singleton.mp hmem]
      exact hsave _
  · simp only [upsertCity, hfind] at hc2
    by_cases hch : c0.name ≠ loc.name_component ∨ c0.admin1 ≠ loc.admin1_component ∨
        c0.country ≠ loc.country_component ∨ c0.full_display_name ≠ loc.display_name
    · rw [if_pos hch] at hc2
      have hc3 : c ∈ db.cities.map (fun x =>
          if x = c0 then
            City.save { c0 with
              name := loc.name_component
              admin1 := loc.admin1_component
              country := loc.country_component
              full_display_name := loc.display_name }
          else x) := hc2
      obtain ⟨x, hx, hfx⟩ := List.mem_map.mp hc3
      by_cases hxe : x = c0
      · rw [if_pos hxe] at hfx
        rw [← hfx]
        exact hsave _
      · rw [if_neg hxe] at hfx
        rw [← hfx]
        exact hdb x hx
    · rw [if_neg hch] at hc2
      exact hdb c hc2

theorem c9_city_display_invariant_witness :
    cityInvariant ((update_city_and_history ⟨true, true⟩
      ⟨0, 0, pstr "X", pstr "A", [], pstr "B"⟩ ⟨[], []⟩).cities.getD 0
        (City.save ⟨[], [], [], 0, 0, 0, [], []⟩)) := by
  have hlen : ((update_city_and_history ⟨true, true⟩
      ⟨0, 0, pstr "X", pstr "A", [], pstr "B"⟩ ⟨[], []⟩).cities).length = 1 := rfl
  exact c9_city_display_invariant _ _ _ (by simp) _
    (getD_mem _ 0 _ (by rw [hlen]; norm_num))

end Wfcast
